import Mathlib

/-
Verification of the run-orchestration core of the code-executor service.
Each definition is a shallow embedding of a function from the TypeScript
sources (src/api/src/core and src/api/src/routes); Node library calls
(crypto HMAC, JSON parsing, path.relative) are abstracted as function
parameters, while all repository logic is translated concretely.
-/

namespace CodeExecutor

/-- Run status enumeration from src/api/src/core/types.ts. -/
inductive RunStatus where
  | succeeded
  | failed
  | timeout
  | oom
  | killed
  deriving DecidableEq, Repr

/-- Status classification performed by `DockerSandbox.run`
(src/api/src/core/sandbox.ts, lines 58-66) on the child process exit event
`[code, signal]`.  The source initializes `status = 'succeeded'`, sets it to
`'timeout'` when `signal === 'SIGKILL'`, then runs
`if (code === 137) status = 'oom'; else if (code !== 0) status = 'failed';`. -/
def classifyStatus (code : Option Int) (signal : Option String) : RunStatus :=
  let afterSignal : RunStatus :=
    if signal = some "SIGKILL" then RunStatus.timeout else RunStatus.succeeded
  if code = some 137 then RunStatus.oom
  else if code ≠ some 0 then RunStatus.failed
  else afterSignal

/-- Run limits record from src/api/src/core/types.ts; fields are JS numbers,
modelled as integers. -/
structure RunLimits where
  timeout_ms : Int
  memory_mb : Int
  cpu_ms : Int
  max_output_bytes : Int
  max_artifact_bytes : Int
  max_artifact_files : Int
  deriving DecidableEq, Repr

/-- DEFAULT_LIMITS from src/api/src/core/limits.ts. -/
def DEFAULT_LIMITS : RunLimits :=
  { timeout_ms := 5000
    memory_mb := 256
    cpu_ms := 5000
    max_output_bytes := 1048576
    max_artifact_bytes := 5242880
    max_artifact_files := 10 }

/-- MAX_LIMITS from src/api/src/core/limits.ts. -/
def MAX_LIMITS : RunLimits :=
  { timeout_ms := 10000
    memory_mb := 512
    cpu_ms := 20000
    max_output_bytes := 2097152
    max_artifact_bytes := 20971520
    max_artifact_files := 10 }

/-- TypeScript `Partial<RunLimits>`: every field optional. -/
structure LimitsInput where
  timeout_ms : Option Int := none
  memory_mb : Option Int := none
  cpu_ms : Option Int := none
  max_output_bytes : Option Int := none
  max_artifact_bytes : Option Int := none
  max_artifact_files : Option Int := none
  deriving DecidableEq, Repr

/-- Spread step of `mergeLimits` (limits.ts line 23):
`{ ...DEFAULT_LIMITS, ...(input ?? {}) }`. -/
def mergedLimits (input : Option LimitsInput) : RunLimits :=
  let i := input.getD {}
  { timeout_ms := i.timeout_ms.getD DEFAULT_LIMITS.timeout_ms
    memory_mb := i.memory_mb.getD DEFAULT_LIMITS.memory_mb
    cpu_ms := i.cpu_ms.getD DEFAULT_LIMITS.cpu_ms
    max_output_bytes := i.max_output_bytes.getD DEFAULT_LIMITS.max_output_bytes
    max_artifact_bytes := i.max_artifact_bytes.getD DEFAULT_LIMITS.max_artifact_bytes
    max_artifact_files := i.max_artifact_files.getD DEFAULT_LIMITS.max_artifact_files }

/-- The `mergeLimits` function from src/api/src/core/limits.ts, lines 22-43.
A thrown `Boom.badRequest` is modelled as `Except.error` carrying the message. -/
def mergeLimits (input : Option LimitsInput) : Except String RunLimits :=
  let merged := mergedLimits input
  if merged.timeout_ms > MAX_LIMITS.timeout_ms then
    Except.error "timeout_ms exceeds maximum"
  else if merged.memory_mb > MAX_LIMITS.memory_mb then
    Except.error "memory_mb exceeds maximum"
  else if merged.cpu_ms > MAX_LIMITS.cpu_ms then
    Except.error "cpu_ms exceeds maximum"
  else if merged.max_output_bytes > MAX_LIMITS.max_output_bytes then
    Except.error "max_output_bytes exceeds maximum"
  else if merged.max_artifact_bytes > MAX_LIMITS.max_artifact_bytes then
    Except.error "max_artifact_bytes exceeds maximum"
  else if merged.max_artifact_files > MAX_LIMITS.max_artifact_files then
    Except.error "max_artifact_files exceeds maximum"
  else
    Except.ok merged

/-- An effective limits record lies within every configured maximum. -/
def withinMax (m : RunLimits) : Bool :=
  decide (m.timeout_ms ≤ MAX_LIMITS.timeout_ms) &&
  decide (m.memory_mb ≤ MAX_LIMITS.memory_mb) &&
  decide (m.cpu_ms ≤ MAX_LIMITS.cpu_ms) &&
  decide (m.max_output_bytes ≤ MAX_LIMITS.max_output_bytes) &&
  decide (m.max_artifact_bytes ≤ MAX_LIMITS.max_artifact_bytes) &&
  decide (m.max_artifact_files ≤ MAX_LIMITS.max_artifact_files)

/-- View a full limits record as an input, as TypeScript implicitly does when a
`RunLimits` value is passed where `Partial<RunLimits>` is expected. -/
def RunLimits.asInput (l : RunLimits) : LimitsInput :=
  { timeout_ms := some l.timeout_ms
    memory_mb := some l.memory_mb
    cpu_ms := some l.cpu_ms
    max_output_bytes := some l.max_output_bytes
    max_artifact_bytes := some l.max_artifact_bytes
    max_artifact_files := some l.max_artifact_files }

lemma mergeLimits_ok_of_withinMax (input : Option LimitsInput)
    (h : withinMax (mergedLimits input) = true) :
    mergeLimits input = Except.ok (mergedLimits input) := by
  simp only [withinMax, Bool.and_eq_true, decide_eq_true_eq] at h
  obtain ⟨⟨⟨⟨⟨h1, h2⟩, h3⟩, h4⟩, h5⟩, h6⟩ := h
  simp only [mergeLimits]
  split_ifs with g1 g2 g3 g4 g5 g6 <;> first | rfl | omega

lemma mergeLimits_error_of_not_withinMax (input : Option LimitsInput)
    (h : withinMax (mergedLimits input) = false) :
    ∃ e, mergeLimits input = Except.error e := by
  simp only [withinMax, Bool.and_eq_false_iff, decide_eq_false_iff_not, not_le] at h
  simp only [mergeLimits]
  split_ifs with g1 g2 g3 g4 g5 g6
  · exact ⟨_, rfl⟩
  · exact ⟨_, rfl⟩
  · exact ⟨_, rfl⟩
  · exact ⟨_, rfl⟩
  · exact ⟨_, rfl⟩
  · exact ⟨_, rfl⟩
  · exfalso
    rcases h with ((((h | h) | h) | h) | h) | h <;> omega

lemma mergeLimits_ok_inv (input : Option LimitsInput) (y : RunLimits)
    (h : mergeLimits input = Except.ok y) :
    y = mergedLimits input ∧ withinMax y = true := by
  simp only [mergeLimits] at h
  split_ifs at h with g1 g2 g3 g4 g5 g6
  all_goals cases h
  refine ⟨rfl, ?_⟩
  simp only [withinMax, Bool.and_eq_true, decide_eq_true_eq]
  omega

lemma mergedLimits_asInput (y : RunLimits) :
    mergedLimits (some y.asInput) = y := rfl

/-- Claim C1 (code evaluation at the failing input): when the child exit event
reports a null exit code and signal SIGKILL — the wall-clock-timer kill — the
classification in `DockerSandbox.run` yields `failed`, not the `timeout` the
spec's status table requires: the `else if (code !== 0)` branch fires because
`null !== 0`, clobbering the earlier `status = 'timeout'` assignment. -/
theorem C1_sigkill_reports_failed :
    classifyStatus none (some "SIGKILL") = RunStatus.failed ∧
      RunStatus.failed ≠ RunStatus.timeout := by
  exact ⟨rfl, by decide⟩

/-- Claim C5 counterexample: `mergeLimits` accepts a zero field.  On input
`{timeout_ms: 0}` it returns an effective limits record whose `timeout_ms` is
zero instead of failing with a bad-request error, refuting the claim that a
zero or negative field is rejected. -/
theorem C5_zero_timeout_accepted :
    mergeLimits (some { timeout_ms := some 0 }) =
      Except.ok
        { timeout_ms := 0
          memory_mb := 256
          cpu_ms := 5000
          max_output_bytes := 1048576
          max_artifact_bytes := 5242880
          max_artifact_files := 10 } := by
  rfl

/-- Claim C5 (amended): `mergeLimits` checks only the upper bounds.  It returns
the spread-merged record exactly when every merged field is at most its
configured maximum; zero or negative fields are accepted and propagated into
the returned effective limits unchanged. -/
theorem C5_upper_bound_only (input : Option LimitsInput) :
    mergeLimits input = Except.ok (mergedLimits input) ↔
      withinMax (mergedLimits input) = true := by
  constructor
  · intro h
    exact (mergeLimits_ok_inv input (mergedLimits input) h).2
  · intro h
    exact mergeLimits_ok_of_withinMax input h

/-- Claim C9: `mergeLimits` of an absent or empty input equals the configured
defaults; it is idempotent (feeding a successful result back in succeeds with
the same record); and any input field strictly greater than its configured
maximum causes rejection. -/
theorem C9_merge_limits_algebra :
    (mergeLimits none = Except.ok DEFAULT_LIMITS ∧
      mergeLimits (some {}) = Except.ok DEFAULT_LIMITS) ∧
    (∀ x y, mergeLimits x = Except.ok y →
      mergeLimits (some y.asInput) = Except.ok y) ∧
    (∀ x : LimitsInput,
      ((∃ t, x.timeout_ms = some t ∧ MAX_LIMITS.timeout_ms < t) ∨
       (∃ t, x.memory_mb = some t ∧ MAX_LIMITS.memory_mb < t) ∨
       (∃ t, x.cpu_ms = some t ∧ MAX_LIMITS.cpu_ms < t) ∨
       (∃ t, x.max_output_bytes = some t ∧ MAX_LIMITS.max_output_bytes < t) ∨
       (∃ t, x.max_artifact_bytes = some t ∧ MAX_LIMITS.max_artifact_bytes < t) ∨
       (∃ t, x.max_artifact_files = some t ∧ MAX_LIMITS.max_artifact_files < t)) →
      ∃ e, mergeLimits (some x) = Except.error e) := by
  refine ⟨⟨rfl, rfl⟩, ?_, ?_⟩
  · intro x y h
    obtain ⟨hy, hw⟩ := mergeLimits_ok_inv x y h
    have := mergeLimits_ok_of_withinMax (some y.asInput)
      (by rw [mergedLimits_asInput]; exact hw)
    rw [mergedLimits_asInput] at this
    exact this
  · intro x hx
    apply mergeLimits_error_of_not_withinMax
    simp only [withinMax, Bool.and_eq_false_iff, decide_eq_false_iff_not, not_le]
    rcases hx with ⟨t, ht, hgt⟩ | ⟨t, ht, hgt⟩ | ⟨t, ht, hgt⟩ |
      ⟨t, ht, hgt⟩ | ⟨t, ht, hgt⟩ | ⟨t, ht, hgt⟩ <;>
      simp only [mergedLimits, Option.getD_some, ht] <;> omega

/-- Concrete instantiation of C9: idempotence applied at `x = none`, and
rejection applied at a timeout_ms of 10001 (one above the maximum). -/
theorem C9_merge_limits_algebra_witness :
    mergeLimits (some DEFAULT_LIMITS.asInput) = Except.ok DEFAULT_LIMITS ∧
    ∃ e, mergeLimits (some { timeout_ms := some 10001 }) = Except.error e := by
  constructor
  · exact C9_merge_limits_algebra.2.1 none DEFAULT_LIMITS rfl
  · exact C9_merge_limits_algebra.2.2 { timeout_ms := some 10001 }
      (Or.inl ⟨10001, rfl, by decide⟩)

/-- Association-list model of a JS object with string values; lookup returns
the value at the first matching key. -/
def lookupEnv (m : List (String × String)) (k : String) : Option String :=
  match m with
  | [] => none
  | (k2, v) :: rest => if k2 = k then some v else lookupEnv rest k

/-- Key membership in the JS-object model. -/
def hasKey (m : List (String × String)) (k : String) : Bool :=
  (lookupEnv m k).isSome

/-- JS object property assignment `m[k] = v`: overwrite in place when the key
exists, otherwise append (insertion order preserved). -/
def setKey (m : List (String × String)) (k v : String) : List (String × String) :=
  match m with
  | [] => [(k, v)]
  | (k2, v2) :: rest => if k2 = k then (k2, v) :: rest else (k2, v2) :: setKey rest k v

/-- Model of the JS `String.prototype.startsWith` method on Lean strings. -/
def strStartsWith (s pre : String) : Bool :=
  pre.data.isPrefixOf s.data

/-- ASCII upper-casing of one character, as used to model the `i` flag of the
regular expression `/^LD_/i`. -/
def asciiUpper (c : Char) : Char :=
  if 97 ≤ c.toNat ∧ c.toNat ≤ 122 then Char.ofNat (c.toNat - 32) else c

/-- The test `/^LD_/i.test(key)` from `Orchestrator.buildEnvironment`
(orchestrator.ts line 206): the key starts with `LD_` case-insensitively. -/
def isLdKey (k : String) : Bool :=
  strStartsWith (String.mk (k.data.map asciiUpper)) "LD_"

/-- The `Orchestrator.buildEnvironment` function (orchestrator.ts lines
200-212): seed `{HOME: "/work", TMPDIR: "/work/tmp"}`, then copy every user
entry whose key does not match `/^LD_/i`, overwriting on key collision. -/
def buildEnvironment (env : Option (List (String × String))) : List (String × String) :=
  let sanitized : List (String × String) := [("HOME", "/work"), ("TMPDIR", "/work/tmp")]
  match env with
  | none => sanitized
  | some entries =>
      entries.foldl
        (fun acc kv => if isLdKey kv.1 then acc else setKey acc kv.1 kv.2)
        sanitized

lemma lookupEnv_setKey (m : List (String × String)) (k v k2 : String) :
    lookupEnv (setKey m k v) k2 = if k = k2 then some v else lookupEnv m k2 := by
  induction m with
  | nil =>
      by_cases h : k = k2 <;> simp [setKey, lookupEnv, h]
  | cons kv rest ih =>
      obtain ⟨k1, v1⟩ := kv
      by_cases h1 : k1 = k
      · subst h1
        by_cases h2 : k1 = k2 <;> simp [setKey, lookupEnv, h2]
      · by_cases h2 : k1 = k2
        · subst h2
          have : ¬ k = k1 := fun h => h1 h.symm
          simp [setKey, lookupEnv, h1, this]
        · simp [setKey, lookupEnv, h1, h2, ih]

lemma lookupEnv_buildEnv_step (entries : List (String × String))
    (acc : List (String × String)) (k : String) (hk : isLdKey k = true) :
    lookupEnv
      (entries.foldl
        (fun acc kv => if isLdKey kv.1 then acc else setKey acc kv.1 kv.2) acc) k =
      lookupEnv acc k := by
  induction entries generalizing acc with
  | nil => rfl
  | cons kv rest ih =>
      obtain ⟨k1, v1⟩ := kv
      by_cases h1 : isLdKey k1
      · simpa [h1] using ih acc
      · have hne : k1 ≠ k := by
          intro h
          rw [h] at h1
          exact h1 hk
        have h1f : isLdKey k1 = false := by simpa using h1
        simp only [List.foldl_cons, h1f, Bool.false_eq_true, if_false]
        rw [ih (setKey acc k1 v1), lookupEnv_setKey]
        simp [hne]

lemma lookupEnv_buildEnv_keep (entries : List (String × String))
    (acc : List (String × String)) (k v : String)
    (hmem : ∀ kv ∈ entries, kv.1 ≠ k)
    (hacc : lookupEnv acc k = some v) :
    lookupEnv
      (entries.foldl
        (fun acc kv => if isLdKey kv.1 then acc else setKey acc kv.1 kv.2) acc) k =
      some v := by
  induction entries generalizing acc with
  | nil => exact hacc
  | cons kv rest ih =>
      obtain ⟨k1, v1⟩ := kv
      have hne : k1 ≠ k := hmem (k1, v1) (List.mem_cons_self _ _)
      have hmem2 : ∀ kv ∈ rest, kv.1 ≠ k :=
        fun kv hkv => hmem kv (List.mem_cons_of_mem _ hkv)
      by_cases h1 : isLdKey k1
      · have h1t : isLdKey k1 = true := h1
        simp only [List.foldl_cons, h1t, if_true]
        exact ih acc hmem2 hacc
      · have h1f : isLdKey k1 = false := by simpa using h1
        simp only [List.foldl_cons, h1f, Bool.false_eq_true, if_false]
        apply ih (setKey acc k1 v1) hmem2
        rw [lookupEnv_setKey]
        simp [hne, hacc]

lemma not_mem_of_hasKey_false (m : List (String × String)) (k : String)
    (h : hasKey m k = false) : ∀ kv ∈ m, kv.1 ≠ k := by
  induction m with
  | nil => intro kv hkv; cases hkv
  | cons kv2 rest ih =>
      intro kv hkv
      obtain ⟨k2, v2⟩ := kv2
      simp only [hasKey, lookupEnv] at h
      by_cases h2 : k2 = k
      · simp [h2] at h
      · rcases List.mem_cons.mp hkv with hkv | hkv
        · subst hkv; exact h2
        · refine ih ?_ kv hkv
          simpa [hasKey, h2] using h

/-- Claim C4 counterexample: a user-supplied `HOME` entry overwrites the seeded
`HOME=/work`; `buildEnvironment` does not force `HOME` back to `/work`. -/
theorem C4_user_home_wins :
    lookupEnv (buildEnvironment (some [("HOME", "/tmp/attacker")])) "HOME" =
      some "/tmp/attacker" := by
  rfl

/-- Claim C4 (amended): for every user environment map, the sanitized result
contains no key matching `/^LD_/i`; it maps `HOME` to `/work` and `TMPDIR` to
`/work/tmp` whenever the user map itself contains no `HOME` (respectively
`TMPDIR`) entry — a user-supplied entry for either key overwrites the seed. -/
theorem C4_env_sanitized (env : List (String × String)) :
    (∀ k, isLdKey k = true → hasKey (buildEnvironment (some env)) k = false) ∧
    (hasKey env "HOME" = false →
      lookupEnv (buildEnvironment (some env)) "HOME" = some "/work") ∧
    (hasKey env "TMPDIR" = false →
      lookupEnv (buildEnvironment (some env)) "TMPDIR" = some "/work/tmp") := by
  refine ⟨?_, ?_, ?_⟩
  · intro k hk
    simp only [buildEnvironment, hasKey]
    rw [lookupEnv_buildEnv_step env _ k hk]
    have h1 : ("HOME" : String) ≠ k := by
      intro h; rw [← h] at hk; simp [isLdKey, strStartsWith, asciiUpper] at hk
    have h2 : ("TMPDIR" : String) ≠ k := by
      intro h; rw [← h] at hk; simp [isLdKey, strStartsWith, asciiUpper] at hk
    simp [lookupEnv, h1, h2]
  · intro h
    simp only [buildEnvironment]
    exact lookupEnv_buildEnv_keep env _ _ _ (not_mem_of_hasKey_false env _ h) rfl
  · intro h
    simp only [buildEnvironment]
    exact lookupEnv_buildEnv_keep env _ _ _ (not_mem_of_hasKey_false env _ h) rfl

/-- Concrete instantiation of C4: on the user map `[("LD_PRELOAD", "x"),
("FOO", "bar")]` the result drops the `LD_PRELOAD` key and keeps the seeded
`HOME` and `TMPDIR`. -/
theorem C4_env_sanitized_witness :
    hasKey (buildEnvironment (some [("LD_PRELOAD", "x"), ("FOO", "bar")])) "LD_PRELOAD" = false ∧
    lookupEnv (buildEnvironment (some [("LD_PRELOAD", "x"), ("FOO", "bar")])) "HOME" = some "/work" ∧
    lookupEnv (buildEnvironment (some [("LD_PRELOAD", "x"), ("FOO", "bar")])) "TMPDIR" = some "/work/tmp" := by
  refine ⟨?_, ?_, ?_⟩
  · exact (C4_env_sanitized [("LD_PRELOAD", "x"), ("FOO", "bar")]).1 "LD_PRELOAD" (by decide)
  · exact (C4_env_sanitized [("LD_PRELOAD", "x"), ("FOO", "bar")]).2.1 (by decide)
  · exact (C4_env_sanitized [("LD_PRELOAD", "x"), ("FOO", "bar")]).2.2 (by decide)

/-- The compact payload carried by a signed URL (storage.ts `PresignPayload`):
`path` is the URL path, `exp` a UNIX-seconds expiry, `method` fixed to GET. -/
structure PresignPayload where
  path : String
  exp : Int
  method : String
  deriving DecidableEq, Repr

/-- Possible outcomes of `ArtifactStorage.verifySignedRequest`.  The four
`Boom.forbidden` throws keep their messages; `rangeError` is the `RangeError`
thrown by `crypto.timingSafeEqual` when the two buffers have different
lengths, and `parseError` the `SyntaxError` thrown by `JSON.parse` — neither
of which is a Boom forbidden error. -/
inductive VerifyOutcome where
  | ok (p : PresignPayload)
  | forbidden (msg : String)
  | rangeError
  | parseError
  deriving DecidableEq, Repr

/-- Whether an outcome is the external *forbidden* failure kind. -/
def VerifyOutcome.isForbidden : VerifyOutcome → Bool
  | VerifyOutcome.forbidden _ => true
  | _ => false

/-- The `ArtifactStorage.verifySignedRequest` method (storage.ts lines
102-119).  `hmacBytes key message` abstracts the byte string
`Buffer.from(crypto.createHmac('sha256', key).update(message).digest('hex'), 'hex')`
(32 bytes for real HMAC-SHA-256); `parseJson` abstracts `JSON.parse`
(returning `none` when it would throw); `sigBytes` is the hex-decoded `sig`
query parameter; `nowSec` is `Math.floor(Date.now() / 1000)`. -/
def verifySignedRequest (hmacBytes : String → String → List Nat)
    (parseJson : String → Option PresignPayload)
    (signingKey urlPath payloadJson : String) (sigBytes : List Nat)
    (nowSec : Int) : VerifyOutcome :=
  match parseJson payloadJson with
  | none => VerifyOutcome.parseError
  | some payload =>
    let expected := hmacBytes signingKey payloadJson
    if sigBytes.length ≠ expected.length then VerifyOutcome.rangeError
    else if sigBytes ≠ expected then VerifyOutcome.forbidden "invalid signature"
    else if payload.path ≠ urlPath then VerifyOutcome.forbidden "path mismatch"
    else if payload.method ≠ "GET" then VerifyOutcome.forbidden "method mismatch"
    else if payload.exp < nowSec then VerifyOutcome.forbidden "url expired"
    else VerifyOutcome.ok payload

/-- JSON.stringify of a `PresignPayload` with the field order used by
`ArtifactStorage.signUrl` (storage.ts line 95-96). -/
def serializePayload (p : PresignPayload) : String :=
  "\x7b\"path\":\"" ++ p.path ++ "\",\"exp\":" ++ toString p.exp ++
    ",\"method\":\"" ++ p.method ++ "\"\x7d"

/-- The `ArtifactStorage.signUrl` method (storage.ts lines 93-100), reduced to
the two query parameters it mints: the serialized payload and its HMAC
signature.  `exp` is the UNIX-seconds expiry embedded in the payload. -/
def signUrl (hmacBytes : String → String → List Nat) (signingKey urlPath : String)
    (exp : Int) : String × List Nat :=
  let serialized := serializePayload ⟨urlPath, exp, "GET"⟩
  (serialized, hmacBytes signingKey serialized)

/-- Concrete stand-ins for the abstracted Node library functions, used by the
closed-instance theorems below. -/
def hmac32 : String → String → List Nat :=
  fun _ _ => List.replicate 32 0

/-- Payload used by the closed-instance theorems. -/
def cPayload : PresignPayload :=
  ⟨"/v1/files/abc", 100, "GET"⟩

/-- A parse function that recognizes exactly the serialization of `cPayload`,
standing in for `JSON.parse` on that input. -/
def cParse : String → Option PresignPayload :=
  fun s => if s = serializePayload cPayload then some cPayload else none

/-- Claim C3 counterexample: a malformed signature whose decoded length (one
byte) differs from the 32-byte HMAC makes `verifySignedRequest` raise the
`crypto.timingSafeEqual` length `RangeError` — surfaced as a 500 — rather
than the single external *forbidden* kind. -/
theorem C3_short_sig_range_error :
    verifySignedRequest hmac32 cParse "key" "/v1/files/abc"
        (serializePayload cPayload) [0] 100 = VerifyOutcome.rangeError ∧
      VerifyOutcome.rangeError.isForbidden = false := by
  exact ⟨rfl, rfl⟩

/-- Claim C3 (amended): whenever the payload parses and the decoded signature
has the same length as the computed HMAC, `verifySignedRequest` either
succeeds or fails with the single external *forbidden* kind — wrong
signature, path mismatch, non-GET method and expiry are indistinguishable.
Signatures of any other decoded length instead raise a `RangeError` from
`crypto.timingSafeEqual`, which is not a forbidden error. -/
theorem C3_wellformed_failures_forbidden (hmacBytes : String → String → List Nat)
    (parseJson : String → Option PresignPayload)
    (signingKey urlPath payloadJson : String) (sigBytes : List Nat)
    (nowSec : Int) (payload : PresignPayload)
    (hparse : parseJson payloadJson = some payload)
    (hlen : sigBytes.length = (hmacBytes signingKey payloadJson).length) :
    verifySignedRequest hmacBytes parseJson signingKey urlPath payloadJson
        sigBytes nowSec = VerifyOutcome.ok payload ∨
      (verifySignedRequest hmacBytes parseJson signingKey urlPath payloadJson
        sigBytes nowSec).isForbidden = true := by
  simp only [verifySignedRequest, hparse]
  split_ifs with g1 g2 g3 g4 g5
  · exact absurd hlen g1
  · exact Or.inr rfl
  · exact Or.inr rfl
  · exact Or.inr rfl
  · exact Or.inr rfl
  · exact Or.inl rfl

/-- Concrete instantiation of C3 (amended): a 32-byte signature that does not
match the HMAC is rejected with the forbidden kind. -/
theorem C3_wellformed_failures_forbidden_witness :
    verifySignedRequest hmac32 cParse "key" "/v1/files/abc"
        (serializePayload cPayload) (List.replicate 32 1) 100 =
        VerifyOutcome.ok cPayload ∨
      (verifySignedRequest hmac32 cParse "key" "/v1/files/abc"
        (serializePayload cPayload) (List.replicate 32 1) 100).isForbidden = true := by
  exact C3_wellformed_failures_forbidden hmac32 cParse "key" "/v1/files/abc"
    (serializePayload cPayload) (List.replicate 32 1) 100 cPayload rfl rfl

/-- Claim C7 counterexample: a URL minted with `exp = 100` still verifies when
the current UNIX second equals 100 — the expiry check `payload.exp <
Math.floor(Date.now()/1000)` admits the boundary instant, refuting the claim
that verification succeeds only strictly before `exp`. -/
theorem C7_verifies_at_expiry_instant :
    verifySignedRequest hmac32 cParse "key" "/v1/files/abc"
        (signUrl hmac32 "key" "/v1/files/abc" 100).1
        (signUrl hmac32 "key" "/v1/files/abc" 100).2 100 =
        VerifyOutcome.ok cPayload ∧
      ¬ ((100 : Int) < 100) := by
  exact ⟨rfl, by omega⟩

/-- Claim C7 (amended): an artifact URL minted by `signUrl` (payload
unmodified, request path and GET method matching) verifies exactly when the
current UNIX second is at most the embedded `exp`; it fails only from the
first second strictly after `exp`.  The round-trip hypothesis states that
`JSON.parse` inverts `JSON.stringify` on this payload. -/
theorem C7_expiry_boundary (hmacBytes : String → String → List Nat)
    (parseJson : String → Option PresignPayload) (signingKey urlPath : String)
    (exp nowSec : Int)
    (hround : parseJson (serializePayload ⟨urlPath, exp, "GET"⟩) =
      some ⟨urlPath, exp, "GET"⟩) :
    verifySignedRequest hmacBytes parseJson signingKey urlPath
        (signUrl hmacBytes signingKey urlPath exp).1
        (signUrl hmacBytes signingKey urlPath exp).2 nowSec =
        VerifyOutcome.ok ⟨urlPath, exp, "GET"⟩ ↔
      nowSec ≤ exp := by
  simp only [signUrl, verifySignedRequest, hround]
  split_ifs with g1 g2 g3 g4 g5
  · exact absurd rfl g1
  · exact absurd rfl g2
  · exact absurd rfl g3
  · exact absurd rfl g4
  · constructor
    · intro h; cases h
    · intro h; omega
  · constructor
    · intro _; omega
    · intro _; rfl

/-- Concrete instantiation of C7 (amended): the minted URL with `exp = 100`
verifies at UNIX second 99. -/
theorem C7_expiry_boundary_witness :
    (verifySignedRequest hmac32 cParse "key" "/v1/files/abc"
        (signUrl hmac32 "key" "/v1/files/abc" 100).1
        (signUrl hmac32 "key" "/v1/files/abc" 100).2 99 =
        VerifyOutcome.ok ⟨"/v1/files/abc", 100, "GET"⟩ ↔ (99 : Int) ≤ 100) ∧
      (99 : Int) ≤ 100 := by
  exact ⟨C7_expiry_boundary hmac32 cParse "key" "/v1/files/abc" 100 99 rfl,
    by omega⟩

/-- Usage record from types.ts. -/
structure RunUsage where
  wall_ms : Int
  cpu_ms : Int
  max_rss_mb : Int
  deriving DecidableEq, Repr

/-- Stored artifact descriptor from types.ts (`RunArtifact`). -/
structure RunArtifact where
  name : String
  size : Int
  sha256 : String
  url : String
  expires_at : String
  content_type : String
  deriving DecidableEq, Repr

/-- Candidate artifact entry of a sandbox result (types.ts
`SandboxResult.artifacts`). -/
structure CandidateArtifact where
  path : String
  name : String
  size : Int
  contentType : Option String := none
  deriving DecidableEq, Repr

/-- Sandbox result from types.ts; the stdout and stderr buffers are modelled
after their UTF-8 decoding. -/
structure SandboxResult where
  status : RunStatus
  exitCode : Option Int
  stdout : String
  stderr : String
  usage : RunUsage
  artifacts : List CandidateArtifact
  deriving DecidableEq, Repr

/-- Run record from types.ts; `exit_code` is declared `number | null`, hence
`Option Int`. -/
structure RunRecord where
  id : String
  status : RunStatus
  exit_code : Option Int
  stdout : String
  stderr : String
  usage : RunUsage
  artifacts : List RunArtifact
  limits : RunLimits
  created_at : String
  language : String
  code_sha256 : String
  deriving DecidableEq, Repr

/-- Run-record assembly of `Orchestrator.createRun` (orchestrator.ts lines
80-92; `createRunWithStreaming` lines 146-158 are identical): the field
assignments are `status: result.status` and `exit_code: result.exitCode ?? 0`
— the JS nullish coalescing makes the stored exit code `0` whenever the
sandbox reported `null`. -/
def assembleRecord (runId language codeSha256 : String) (limits : RunLimits)
    (artifacts : List RunArtifact) (createdAt : String)
    (result : SandboxResult) : RunRecord :=
  { id := runId
    status := result.status
    exit_code := some (result.exitCode.getD 0)
    stdout := result.stdout
    stderr := result.stderr
    usage := result.usage
    artifacts := artifacts
    limits := limits
    created_at := createdAt
    language := language
    code_sha256 := codeSha256 }

/-- Usage record used by the closed-instance theorems. -/
def cUsage : RunUsage := ⟨5, 5, 10⟩

/-- Sandbox result reporting `succeeded` together with exit code 3. -/
def cResultSucceeded3 : SandboxResult :=
  ⟨RunStatus.succeeded, some 3, "", "", cUsage, []⟩

/-- Sandbox result reporting a null exit code (child killed by a signal). -/
def cResultNullExit : SandboxResult :=
  ⟨RunStatus.timeout, none, "", "", cUsage, []⟩

/-- Claim C2 counterexample: when the sandbox reports `succeeded` with exit
code 3, `createRun` keeps status `succeeded` — the record copies
`result.status` verbatim and no override to `failed` exists. -/
theorem C2_succeeded_nonzero_kept :
    (assembleRecord "run_x" "python" "sha" DEFAULT_LIMITS [] "t"
        cResultSucceeded3).status = RunStatus.succeeded ∧
      (assembleRecord "run_x" "python" "sha" DEFAULT_LIMITS [] "t"
        cResultSucceeded3).exit_code = some 3 ∧
      RunStatus.succeeded ≠ RunStatus.failed := by
  exact ⟨rfl, rfl, by decide⟩

/-- Claim C2 (amended): the run record's status always equals the sandbox
result's status; `createRun` performs no reclassification, in particular no
override of `succeeded` with a non-zero exit code to `failed`. -/
theorem C2_status_equals_sandbox_status (runId language codeSha256 : String)
    (limits : RunLimits) (artifacts : List RunArtifact) (createdAt : String)
    (result : SandboxResult) :
    (assembleRecord runId language codeSha256 limits artifacts createdAt
      result).status = result.status := by
  rfl

/-- Claim C6 counterexample: when the sandbox reports a null exit code the
record's exit code is 0, not null — `result.exitCode ?? 0` coalesces the
null away. -/
theorem C6_null_exit_mapped_to_zero :
    (assembleRecord "run_x" "python" "sha" DEFAULT_LIMITS [] "t"
        cResultNullExit).exit_code = some 0 ∧
      (some (0 : Int) ≠ (none : Option Int)) := by
  exact ⟨rfl, by decide⟩

/-- Claim C6 (amended): the record's exit code equals the sandbox exit code
whenever the latter is non-null; when the sandbox reports null (child killed
by a signal) the record stores 0, never null. -/
theorem C6_exit_code_propagation (runId language codeSha256 : String)
    (limits : RunLimits) (artifacts : List RunArtifact) (createdAt : String)
    (result : SandboxResult) :
    (∀ c : Int, result.exitCode = some c →
      (assembleRecord runId language codeSha256 limits artifacts createdAt
        result).exit_code = some c) ∧
    (result.exitCode = none →
      (assembleRecord runId language codeSha256 limits artifacts createdAt
        result).exit_code = some 0) := by
  constructor
  · intro c hc
    simp [assembleRecord, hc]
  · intro hc
    simp [assembleRecord, hc]

/-- Concrete instantiation of C6 (amended) at a sandbox result with exit code
3 and at one with a null exit code. -/
theorem C6_exit_code_propagation_witness :
    (assembleRecord "run_x" "python" "sha" DEFAULT_LIMITS [] "t"
        cResultSucceeded3).exit_code = some 3 ∧
      (assembleRecord "run_x" "python" "sha" DEFAULT_LIMITS [] "t"
        cResultNullExit).exit_code = some 0 := by
  constructor
  · exact (C6_exit_code_propagation "run_x" "python" "sha" DEFAULT_LIMITS []
      "t" cResultSucceeded3).1 3 rfl
  · exact (C6_exit_code_propagation "run_x" "python" "sha" DEFAULT_LIMITS []
      "t" cResultNullExit).2 rfl

/-- Filter applied to each candidate in the artifact-collection loop of
`Orchestrator.createRun` (orchestrator.ts lines 60-68): the candidate path
must start with the workdir and `path.relative(path.join(workdir,'outputs'),
path)` must not start with `..`.  `rel` abstracts the Node `path.relative`
library function. -/
def passesArtifactFilter (rel : String → String → String) (workdir : String)
    (c : CandidateArtifact) : Bool :=
  strStartsWith c.path workdir &&
    !(strStartsWith (rel (workdir ++ "/outputs") c.path) "..")

/-- The artifact-collection loop of `Orchestrator.createRun` (orchestrator.ts
lines 58-78).  `acc` holds the admitted candidates in reverse order and
`total` the running byte total; a candidate failing the path filter is
skipped (`continue`), while a candidate that passes the filter when a cap is
already full, or whose size would push the byte total past the cap, stops the
loop (`break`), dropping all remaining candidates. -/
def collectLoop (rel : String → String → String) (workdir : String)
    (limits : RunLimits) :
    List CandidateArtifact → List CandidateArtifact → Int → List CandidateArtifact
  | [], acc, _ => acc.reverse
  | c :: rest, acc, total =>
    if !(strStartsWith c.path workdir) then
      collectLoop rel workdir limits rest acc total
    else if strStartsWith (rel (workdir ++ "/outputs") c.path) ".." then
      collectLoop rel workdir limits rest acc total
    else if (acc.length : Int) ≥ limits.max_artifact_files then
      acc.reverse
    else if total + c.size > limits.max_artifact_bytes then
      acc.reverse
    else
      collectLoop rel workdir limits rest (c :: acc) (total + c.size)

/-- Artifact collection over a sandbox result's candidate list, started with
an empty accumulator and a zero byte total, as in `createRun`.  The admitted
candidates are subsequently moved one-by-one into the artifact store
(`moveArtifact`), which preserves name and size, so the descriptors recorded
in the run record correspond one-to-one, in order, to this list. -/
def collectArtifacts (rel : String → String → String) (workdir : String)
    (limits : RunLimits) (cands : List CandidateArtifact) :
    List CandidateArtifact :=
  collectLoop rel workdir limits cands [] 0

/-- Aggregate byte size of a candidate list. -/
def sumSizes (l : List CandidateArtifact) : Int :=
  (l.map (fun c => c.size)).sum

lemma sumSizes_cons (c : CandidateArtifact) (l : List CandidateArtifact) :
    sumSizes (c :: l) = c.size + sumSizes l := by
  simp [sumSizes]

lemma sumSizes_reverse (l : List CandidateArtifact) :
    sumSizes l.reverse = sumSizes l := by
  simp [sumSizes, List.map_reverse, List.sum_reverse]

lemma collectLoop_bounds (rel : String → String → String) (workdir : String)
    (limits : RunLimits) (cands : List CandidateArtifact) :
    ∀ acc total, ((acc.length : Int) ≤ limits.max_artifact_files) →
      total ≤ limits.max_artifact_bytes → total = sumSizes acc →
      (((collectLoop rel workdir limits cands acc total).length : Int) ≤
          limits.max_artifact_files ∧
        sumSizes (collectLoop rel workdir limits cands acc total) ≤
          limits.max_artifact_bytes) := by
  induction cands with
  | nil =>
      intro acc total h1 h2 h3
      constructor
      · simpa [collectLoop, List.length_reverse] using h1
      · simp only [collectLoop]
        rw [sumSizes_reverse]
        omega
  | cons c rest ih =>
      intro acc total h1 h2 h3
      simp only [collectLoop]
      split_ifs with g1 g2 g3 g4
      · exact ih acc total h1 h2 h3
      · exact ih acc total h1 h2 h3
      · constructor
        · simpa [List.length_reverse] using h1
        · rw [sumSizes_reverse]
          omega
      · constructor
        · simpa [List.length_reverse] using h1
        · rw [sumSizes_reverse]
          omega
      · apply ih (c :: acc) (total + c.size)
        · simp only [List.length_cons]
          push_cast
          omega
        · omega
        · rw [sumSizes_cons]
          omega

lemma collectLoop_sublist (rel : String → String → String) (workdir : String)
    (limits : RunLimits) (cands : List CandidateArtifact) :
    ∀ acc total,
      List.Sublist (collectLoop rel workdir limits cands acc total)
        (acc.reverse ++ cands) := by
  induction cands with
  | nil =>
      intro acc total
      simp [collectLoop]
  | cons c rest ih =>
      intro acc total
      simp only [collectLoop]
      split_ifs with g1 g2 g3 g4
      · exact (ih acc total).trans
          ((List.sublist_cons_self c rest).append_left acc.reverse)
      · exact (ih acc total).trans
          ((List.sublist_cons_self c rest).append_left acc.reverse)
      · exact List.sublist_append_left acc.reverse (c :: rest)
      · exact List.sublist_append_left acc.reverse (c :: rest)
      · have h := ih (c :: acc) (total + c.size)
        rw [List.reverse_cons, List.append_assoc, List.singleton_append] at h
        exact h

lemma collectLoop_stop (rel : String → String → String) (workdir : String)
    (limits : RunLimits) (c : CandidateArtifact)
    (post : List CandidateArtifact)
    (hpass : passesArtifactFilter rel workdir c = true)
    (pre : List CandidateArtifact) :
    ∀ acc total, total = sumSizes acc →
      ((((collectLoop rel workdir limits pre acc total).length : Int) ≥
          limits.max_artifact_files) ∨
        sumSizes (collectLoop rel workdir limits pre acc total) + c.size >
          limits.max_artifact_bytes) →
      collectLoop rel workdir limits (pre ++ c :: post) acc total =
        collectLoop rel workdir limits pre acc total := by
  simp only [passesArtifactFilter, Bool.and_eq_true, Bool.not_eq_true'] at hpass
  obtain ⟨hsw, hrel⟩ := hpass
  induction pre with
  | nil =>
      intro acc total hinv hyp
      simp only [collectLoop, List.length_reverse, sumSizes_reverse] at hyp
      simp only [List.nil_append, collectLoop, hsw, hrel, Bool.not_true,
        Bool.false_eq_true, if_false]
      split_ifs with g3 g4
      · rfl
      · rfl
      · exfalso
        rcases hyp with hyp | hyp <;> omega
  | cons p pre' ih =>
      intro acc total hinv hyp
      simp only [List.cons_append]
      simp only [collectLoop] at hyp ⊢
      split_ifs at hyp ⊢ with g1 g2 g3 g4
      · exact ih acc total hinv hyp
      · exact ih acc total hinv hyp
      · rfl
      · rfl
      · apply ih (p :: acc) (total + p.size) ?_ hyp
        rw [sumSizes_cons]
        omega

/-- Claim C8: for every candidate artifact list, the collected artifacts
number at most `max_artifact_files` and their sizes sum to at most
`max_artifact_bytes`; collection preserves the candidates' order (the result
is a sublist of the input), and as soon as a candidate that passes the path
filter would exceed either cap, the loop stops and every remaining candidate
is dropped. -/
theorem C8_artifact_caps (rel : String → String → String) (workdir : String)
    (limits : RunLimits) (cands : List CandidateArtifact)
    (hfiles : 0 ≤ limits.max_artifact_files)
    (hbytes : 0 ≤ limits.max_artifact_bytes) :
    (((collectArtifacts rel workdir limits cands).length : Int) ≤
        limits.max_artifact_files) ∧
    sumSizes (collectArtifacts rel workdir limits cands) ≤
        limits.max_artifact_bytes ∧
    List.Sublist (collectArtifacts rel workdir limits cands) cands ∧
    (∀ pre c post, cands = pre ++ c :: post →
      passesArtifactFilter rel workdir c = true →
      ((((collectArtifacts rel workdir limits pre).length : Int) ≥
          limits.max_artifact_files) ∨
        sumSizes (collectArtifacts rel workdir limits pre) + c.size >
          limits.max_artifact_bytes) →
      collectArtifacts rel workdir limits cands =
        collectArtifacts rel workdir limits pre) := by
  have hb := collectLoop_bounds rel workdir limits cands [] 0
    (by simpa using hfiles) hbytes rfl
  refine ⟨hb.1, hb.2, ?_, ?_⟩
  · simpa using collectLoop_sublist rel workdir limits cands [] 0
  · intro pre c post hsplit hpass hyp
    subst hsplit
    exact collectLoop_stop rel workdir limits c post hpass pre [] 0 rfl hyp

/-- Stand-in for `path.relative` in the closed instances: both collected
candidates sit directly inside `outputs/`, so their relative paths are plain
names, which do not start with `..`. -/
def wRel : String → String → String := fun _ p => p

/-- First collected candidate of the closed instance. -/
def wCand1 : CandidateArtifact := ⟨"/w/outputs/a.txt", "a.txt", 1, none⟩

/-- Second collected candidate of the closed instance. -/
def wCand2 : CandidateArtifact := ⟨"/w/outputs/b.txt", "b.txt", 1, none⟩

/-- Limits for the closed instance: at most one artifact file. -/
def wLimits : RunLimits := ⟨5000, 256, 5000, 1048576, 5242880, 1⟩

/-- Concrete instantiation of C8: with a one-file cap and two candidates that
pass the filter, the collection admits one candidate and the loop stops —
`collectArtifacts` on both candidates equals `collectArtifacts` on the first
alone. -/
theorem C8_artifact_caps_witness :
    (((collectArtifacts wRel "/w" wLimits [wCand1, wCand2]).length : Int) ≤
        wLimits.max_artifact_files) ∧
    collectArtifacts wRel "/w" wLimits [wCand1, wCand2] =
      collectArtifacts wRel "/w" wLimits [wCand1] := by
  have h := C8_artifact_caps wRel "/w" wLimits [wCand1, wCand2]
    (by decide) (by decide)
  refine ⟨h.1, ?_⟩
  exact h.2.2.2 [wCand1] wCand2 [] rfl (by decide) (Or.inl (by decide))

/-- In-memory run store (run_store.ts): a `Map` from run id to run record,
modelled as an insertion-ordered association list. -/
def RunStore := List (String × RunRecord)

/-- The `RunStore.save` method: JS `Map.set` semantics — overwrite in place
when the id exists, otherwise append. -/
def RunStore.save (s : RunStore) (r : RunRecord) : RunStore :=
  match s with
  | [] => [(r.id, r)]
  | (k, v) :: rest =>
      if k = r.id then (k, r) :: rest else (k, v) :: RunStore.save rest r

/-- The `RunStore.get` method: `Map.get` with a null default. -/
def RunStore.get (s : RunStore) (id : String) : Option RunRecord :=
  match s with
  | [] => none
  | (k, v) :: rest => if k = id then some v else RunStore.get rest id

/-- Outcome of the POST /v1/runs/stream handler, reduced to the state the
claim concerns. -/
structure StreamPostOutcome where
  returnedId : String
  finalStore : RunStore

/-- Model of the POST /v1/runs/stream handler (routes/stream.ts lines
88-131): the route mints `runId = 'run_' + Math.random().toString(36).substring(2, 15)`
and returns it synchronously; the asynchronous continuation then calls
`createRunWithStreaming` — which mints its own `run_` + 12-alphanumeric id
into the record (orchestrator.ts line 102) — and saves the completed record
under `runRecord.id`.  `randSuffix` abstracts the Math.random draw and
`record` the completed record. -/
def postRunsStream (store : RunStore) (randSuffix : String)
    (record : RunRecord) : StreamPostOutcome :=
  { returnedId := "run_" ++ randSuffix
    finalStore := RunStore.save store record }

lemma runStore_get_save_self (s : RunStore) (r : RunRecord) :
    RunStore.get (RunStore.save s r) r.id = some r := by
  induction s with
  | nil => simp [RunStore.save, RunStore.get]
  | cons kv rest ih =>
      obtain ⟨k, v⟩ := kv
      by_cases h : k = r.id
      · simp [RunStore.save, RunStore.get, h]
      · simp [RunStore.save, RunStore.get, h, ih]

lemma runStore_get_save_other (s : RunStore) (r : RunRecord) (id : String)
    (h : id ≠ r.id) :
    RunStore.get (RunStore.save s r) id = RunStore.get s id := by
  have hrid : r.id ≠ id := fun hh => h hh.symm
  induction s with
  | nil => simp [RunStore.save, RunStore.get, hrid]
  | cons kv rest ih =>
      obtain ⟨k, v⟩ := kv
      by_cases hk : k = r.id
      · simp [RunStore.save, RunStore.get, hk, hrid]
      · by_cases hid : k = id
        · simp [RunStore.save, RunStore.get, hk, hid, hrid, h]
        · simp [RunStore.save, RunStore.get, hk, hid, ih]

/-- Claim C10: the id returned synchronously by POST /v1/runs/stream is minted
by a separate mechanism from the id inside the record produced by
`createRunWithStreaming`; the completed record is saved under the record's
own (orchestrator-minted) id, so — whenever the two independently generated
ids differ and the returned id was never a key of the store — looking up the
synchronously returned id yields not-found while the record is retrievable
under the orchestrator's id. -/
theorem C10_stream_id_lookup_not_found (store : RunStore) (randSuffix : String)
    (record : RunRecord)
    (hfresh : RunStore.get store ("run_" ++ randSuffix) = none)
    (hneq : "run_" ++ randSuffix ≠ record.id) :
    (postRunsStream store randSuffix record).returnedId = "run_" ++ randSuffix ∧
    RunStore.get (postRunsStream store randSuffix record).finalStore record.id =
      some record ∧
    RunStore.get (postRunsStream store randSuffix record).finalStore
      ("run_" ++ randSuffix) = none := by
  refine ⟨rfl, ?_, ?_⟩
  · exact runStore_get_save_self store record
  · rw [show (postRunsStream store randSuffix record).finalStore =
      RunStore.save store record from rfl]
    rw [runStore_get_save_other store record _ hneq]
    exact hfresh

/-- Run record used by the closed C10 instance. -/
def wRecord : RunRecord :=
  { id := "run_Ab3dEf6hIj9k"
    status := RunStatus.succeeded
    exit_code := some 0
    stdout := ""
    stderr := ""
    usage := cUsage
    artifacts := []
    limits := DEFAULT_LIMITS
    created_at := ""
    language := "python"
    code_sha256 := "" }

/-- Concrete instantiation of C10: an empty store, a Math.random suffix
`k3j2h1g0f9e8d`, and a record minted as `run_Ab3dEf6hIj9k`. -/
theorem C10_stream_id_lookup_not_found_witness :
    (postRunsStream [] "k3j2h1g0f9e8d" wRecord).returnedId = "run_k3j2h1g0f9e8d" ∧
    RunStore.get (postRunsStream [] "k3j2h1g0f9e8d" wRecord).finalStore
      wRecord.id = some wRecord ∧
    RunStore.get (postRunsStream [] "k3j2h1g0f9e8d" wRecord).finalStore
      "run_k3j2h1g0f9e8d" = none := by
  exact C10_stream_id_lookup_not_found [] "k3j2h1g0f9e8d" wRecord rfl (by decide)

end CodeExecutor
